import Mathlib

/-!
Shallow embedding of the record-manager subsystem of the repository:
`src/utils.py`, `src/base_manager.py`, `src/user_manager.py`,
`src/product_manager.py`.

Modelling conventions:
* Python dict records become a `Record δ` structure: the fixed metadata
  fields `id`, `created_at`, `updated_at` plus a domain-field payload `δ`
  (`UserData` or `ProductData`).  The managers only ever store those keys,
  and the update loop in `_update_record` only touches domain keys, so the
  structure form is faithful.
* The store `self._storage` (a Python dict keyed by int) becomes a function
  `Nat → Option (Record δ)`; `self._id_counter` becomes a `Nat`.
* The timestamp provider `get_timestamp()` is an external collaborator; each
  call site receives its value as an explicit argument, in the order the
  Python code calls it (`_create_record` calls it twice: first for
  `created_at`, then for `updated_at`).
* Python raises `ValueError` in two distinct situations, distinguished by
  the raise site and message: validation failures and not-found failures.
  The spec names them ValidationError and NotFound; `ManagerError` keeps
  the two raise sites apart and carries the exact message string.
* Each operation returns `Except ManagerError result × Manager δ`: the
  result (or the error raised) together with the manager state after the
  call returns or raises.  The error branches return the state exactly as
  it is at the Python raise point.
* `price` is modelled as `ℚ`: the code never does arithmetic on it, only
  the comparison `value <= 0` and storage.
-/

/-- Error raised by the managers.  Python uses `ValueError` for both; the
constructor records which raise site produced it (a validator vs the
"not found" check), and the message string is carried verbatim. -/
inductive ManagerError where
  | validation (msg : String)
  | notFound (msg : String)
deriving DecidableEq, Repr

deriving instance DecidableEq for Except

/-- One stored record: the `id`, the domain fields (payload `δ`), and the
two timestamp strings, mirroring the dict built in `_create_record`. -/
structure Record (δ : Type) where
  id : Nat
  data : δ
  created_at : String
  updated_at : String
deriving DecidableEq, Repr

/-- The state of a `BaseManager`: `self._storage` and `self._id_counter`. -/
structure Manager (δ : Type) where
  storage : Nat → Option (Record δ)
  id_counter : Nat

/-- `BaseManager.__init__`: empty storage, counter 0. -/
def freshManager {δ : Type} : Manager δ :=
  { storage := fun _ => none, id_counter := 0 }

/-- `utils.validate_min_length(value, min_length, field_name)` for a string
value: Python's `not value` on a string is the empty-string test, and
`len(str(value))` on a string is its length. -/
def validate_min_length (value : String) (min_length : Nat)
    (field_name : String) : Except ManagerError Unit :=
  if value = "" ∨ value.length < min_length then
    .error (.validation
      (field_name ++ " must be at least " ++ toString min_length ++
        " characters long"))
  else
    .ok ()

/-- `utils.validate_positive_number(value, field_name)`: Python's
`not value` on a number is the zero test. -/
def validate_positive_number (value : ℚ) (field_name : String) :
    Except ManagerError Unit :=
  if value = 0 ∨ value ≤ 0 then
    .error (.validation (field_name ++ " must be greater than 0"))
  else
    .ok ()

/-- `utils.validate_email(email)`: fails when the string is empty or does
not contain an `@` character.  Python's `'@' in email` is substring
search; for the one-character needle `'@'` it is exactly membership of
the character in the string's characters. -/
def validate_email (email : String) : Except ManagerError Unit :=
  if email = "" ∨ '@' ∉ email.data then
    .error (.validation "Invalid email address")
  else
    .ok ()

/-- `BaseManager._generate_id`: increment the counter and return it. -/
def generate_id {δ : Type} (m : Manager δ) : Nat × Manager δ :=
  let c := m.id_counter + 1
  (c, { m with id_counter := c })

/-- `BaseManager._create_record(data)`: allocate an id, build the record
with `created_at` from the first `get_timestamp()` call (`t1`) and
`updated_at` from the second (`t2`), store it, return it. -/
def create_record {δ : Type} (m : Manager δ) (data : δ) (t1 t2 : String) :
    Record δ × Manager δ :=
  let p := generate_id m
  let record : Record δ :=
    { id := p.1, data := data, created_at := t1, updated_at := t2 }
  (record,
   { p.2 with
     storage := fun k => if k = p.1 then some record else p.2.storage k })

/-- `BaseManager._update_record(record_id, updates, entity_name)`: raise
not-found when the id is absent (state untouched); otherwise apply the
non-`None` update values to the domain fields (the `for key, value in
updates.items()` loop, abstracted as `applyU`), then overwrite
`updated_at` with the fresh timestamp `t`. -/
def update_record {δ : Type} (m : Manager δ) (record_id : Nat)
    (applyU : δ → δ) (t : String) (entity_name : String) :
    Except ManagerError (Record δ) × Manager δ :=
  match m.storage record_id with
  | none => (.error (.notFound (entity_name ++ " not found")), m)
  | some record =>
    let record' : Record δ :=
      { record with data := applyU record.data, updated_at := t }
    (.ok record',
     { m with
       storage := fun k =>
         if k = record_id then some record' else m.storage k })

/-- `BaseManager._get_record(record_id, entity_name)`: raise not-found when
the id is absent; otherwise return the record.  Never mutates. -/
def get_record {δ : Type} (m : Manager δ) (record_id : Nat)
    (entity_name : String) : Except ManagerError (Record δ) × Manager δ :=
  match m.storage record_id with
  | none => (.error (.notFound (entity_name ++ " not found")), m)
  | some record => (.ok record, m)

/-- Domain fields of a user record, as stored by `UserManager.create_user`. -/
structure UserData where
  username : String
  email : String
  password : String
deriving DecidableEq, Repr

/-- The update dict `{'username': username, 'email': email, 'password':
password}` passed by `update_user`: the loop in `_update_record` assigns
each key whose value is not `None`. -/
def applyUserUpdates (username email password : Option String)
    (d : UserData) : UserData :=
  { username := username.getD d.username,
    email := email.getD d.email,
    password := password.getD d.password }

/-- State of a `UserManager` (its `self.users` aliases `self._storage`). -/
abbrev UserManager := Manager UserData

/-- `UserManager.create_user(username, email, password)`: validate the three
fields in source order, then `_create_record`.  `t1, t2` are the two
`get_timestamp()` values consumed on success. -/
def create_user (m : UserManager) (username email password : String)
    (t1 t2 : String) : Except ManagerError (Record UserData) × UserManager :=
  match validate_min_length username 3 "Username" with
  | .error e => (.error e, m)
  | .ok _ =>
    match validate_email email with
    | .error e => (.error e, m)
    | .ok _ =>
      match validate_min_length password 8 "Password" with
      | .error e => (.error e, m)
      | .ok _ =>
        let p := create_record m ⟨username, email, password⟩ t1 t2
        (.ok p.1, p.2)

/-- `UserManager.update_user(user_id, username, email, password)`: validate
each explicitly provided (non-`None`) field in source order, then
`_update_record` with entity name `"User"` and fresh timestamp `t`. -/
def update_user (m : UserManager) (user_id : Nat)
    (username email password : Option String) (t : String) :
    Except ManagerError (Record UserData) × UserManager :=
  match username.elim (.ok ()) (fun u => validate_min_length u 3 "Username") with
  | .error e => (.error e, m)
  | .ok _ =>
    match email.elim (.ok ()) (fun e => validate_email e) with
    | .error e => (.error e, m)
    | .ok _ =>
      match password.elim (.ok ()) (fun p => validate_min_length p 8 "Password") with
      | .error e => (.error e, m)
      | .ok _ =>
        update_record m user_id (applyUserUpdates username email password) t
          "User"

/-- Domain fields of a product record, as stored by
`ProductManager.create_product`. -/
structure ProductData where
  name : String
  description : String
  price : ℚ
deriving DecidableEq, Repr

/-- The update dict passed by `update_product` to `_update_record`. -/
def applyProductUpdates (name description : Option String)
    (price : Option ℚ) (d : ProductData) : ProductData :=
  { name := name.getD d.name,
    description := description.getD d.description,
    price := price.getD d.price }

/-- State of a `ProductManager` (`self.products` aliases `self._storage`). -/
abbrev ProductManager := Manager ProductData

/-- `ProductManager.create_product(name, description, price)`: validate the
three fields in source order, then `_create_record`. -/
def create_product (m : ProductManager) (name description : String)
    (price : ℚ) (t1 t2 : String) :
    Except ManagerError (Record ProductData) × ProductManager :=
  match validate_min_length name 3 "Product name" with
  | .error e => (.error e, m)
  | .ok _ =>
    match validate_min_length description 10 "Description" with
    | .error e => (.error e, m)
    | .ok _ =>
      match validate_positive_number price "Price" with
      | .error e => (.error e, m)
      | .ok _ =>
        let p := create_record m ⟨name, description, price⟩ t1 t2
        (.ok p.1, p.2)

/-- `ProductManager.update_product(product_id, name, description, price)`:
validate each explicitly provided field in source order, then
`_update_record` with entity name `"Product"`. -/
def update_product (m : ProductManager) (product_id : Nat)
    (name description : Option String) (price : Option ℚ) (t : String) :
    Except ManagerError (Record ProductData) × ProductManager :=
  match name.elim (.ok ()) (fun n => validate_min_length n 3 "Product name") with
  | .error e => (.error e, m)
  | .ok _ =>
    match description.elim (.ok ())
        (fun d => validate_min_length d 10 "Description") with
    | .error e => (.error e, m)
    | .ok _ =>
      match price.elim (.ok ())
          (fun p => validate_positive_number p "Price") with
      | .error e => (.error e, m)
      | .ok _ =>
        update_record m product_id
          (applyProductUpdates name description price) t "Product"

/-! ### Operation traces

Sequences of public operations on one manager instance, used to state
trace-level claims (id sequences, store invariants, issued ids). -/

/-- One public call on a `UserManager`.  `get` carries the entity label its
caller passes to `_get_record`.  The `String` arguments `t1 t2` / `t` are
the values the timestamp provider returns at the call sites, in call
order. -/
inductive UserOp where
  | create (username email password t1 t2 : String)
  | update (user_id : Nat) (username email password : Option String)
      (t : String)
  | get (user_id : Nat) (entity_name : String)

/-- Execute one `UserOp`: the result (or raised error) and the state after
the call. -/
def stepUser (m : UserManager) :
    UserOp → Except ManagerError (Record UserData) × UserManager
  | .create u e p t1 t2 => create_user m u e p t1 t2
  | .update i u e p t => update_user m i u e p t
  | .get i n => get_record m i n

/-- Run a sequence of `UserOp`s, returning the final state. -/
def runUser (m : UserManager) : List UserOp → UserManager
  | [] => m
  | op :: rest => runUser (stepUser m op).2 rest

/-- The timestamp-provider outputs consumed by one `UserOp`, in call
order. -/
def userOpTs : UserOp → List String
  | .create _ _ _ t1 t2 => [t1, t2]
  | .update _ _ _ _ t => [t]
  | .get _ _ => []

/-- All timestamp-provider outputs of a trace, in call order. -/
def userTraceTs (ops : List UserOp) : List String :=
  (ops.map userOpTs).flatten

/-- Ids returned by the successful create operations of a trace. -/
def issuedUserIds (m : UserManager) : List UserOp → List Nat
  | [] => []
  | op :: rest =>
    (match op, (stepUser m op).1 with
      | .create _ _ _ _ _, .ok rec => [rec.id]
      | _, _ => []) ++ issuedUserIds (stepUser m op).2 rest

/-- One public call on a `ProductManager`. -/
inductive ProductOp where
  | create (name description : String) (price : ℚ) (t1 t2 : String)
  | update (product_id : Nat) (name description : Option String)
      (price : Option ℚ) (t : String)
  | get (product_id : Nat) (entity_name : String)

/-- Execute one `ProductOp`. -/
def stepProduct (m : ProductManager) :
    ProductOp → Except ManagerError (Record ProductData) × ProductManager
  | .create n d pr t1 t2 => create_product m n d pr t1 t2
  | .update i n d pr t => update_product m i n d pr t
  | .get i lbl => get_record m i lbl

/-- Run a sequence of `ProductOp`s. -/
def runProduct (m : ProductManager) : List ProductOp → ProductManager
  | [] => m
  | op :: rest => runProduct (stepProduct m op).2 rest

/-- The timestamp-provider outputs consumed by one `ProductOp`. -/
def productOpTs : ProductOp → List String
  | .create _ _ _ t1 t2 => [t1, t2]
  | .update _ _ _ _ t => [t]
  | .get _ _ => []

/-- All timestamp-provider outputs of a product trace, in call order. -/
def productTraceTs (ops : List ProductOp) : List String :=
  (ops.map productOpTs).flatten

/-- Ids returned by the successful create operations of a product trace. -/
def issuedProductIds (m : ProductManager) : List ProductOp → List Nat
  | [] => []
  | op :: rest =>
    (match op, (stepProduct m op).1 with
      | .create _ _ _ _ _, .ok rec => [rec.id]
      | _, _ => []) ++ issuedProductIds (stepProduct m op).2 rest

/-- Run a sequence of `create_user` calls, collecting every result. -/
def runUserCreates (m : UserManager) :
    List (String × String × String × String × String) →
      List (Except ManagerError (Record UserData)) × UserManager
  | [] => ([], m)
  | (u, e, p, t1, t2) :: rest =>
    let q := create_user m u e p t1 t2
    let r := runUserCreates q.2 rest
    (q.1 :: r.1, r.2)

/-- Run a sequence of `create_product` calls, collecting every result. -/
def runProductCreates (m : ProductManager) :
    List (String × String × ℚ × String × String) →
      List (Except ManagerError (Record ProductData)) × ProductManager
  | [] => ([], m)
  | (n, d, pr, t1, t2) :: rest =>
    let q := create_product m n d pr t1 t2
    let r := runProductCreates q.2 rest
    (q.1 :: r.1, r.2)

/-- The id carried by a successful result (0 for an error, unused). -/
def resultId {δ : Type} : Except ManagerError (Record δ) → Nat
  | .ok rec => rec.id
  | .error _ => 0

/-! ### Validator characterizations -/

theorem validate_min_length_cases (v : String) (n : Nat) (f : String) :
    validate_min_length v n f = .ok () ∨
      validate_min_length v n f =
        .error (.validation (f ++ " must be at least " ++ toString n ++
          " characters long")) := by
  unfold validate_min_length
  split
  · exact Or.inr rfl
  · exact Or.inl rfl

theorem validate_min_length_ok_iff (v : String) (n : Nat) (f : String)
    (hn : 1 ≤ n) :
    validate_min_length v n f = .ok () ↔ n ≤ v.length := by
  unfold validate_min_length
  rcases Nat.lt_or_ge v.length n with h | h
  · rw [if_pos (Or.inr h)]
    constructor
    · intro hc
      simp at hc
    · intro hle
      exact absurd hle (by omega)
  · rw [if_neg]
    · simp [h]
    · rw [not_or, not_lt]
      refine ⟨?_, h⟩
      rintro rfl
      rw [show ("" : String).length = 0 from rfl] at h
      omega

theorem validate_min_length_err (v : String) (n : Nat) (f : String)
    (h : v.length < n) :
    validate_min_length v n f =
      .error (.validation (f ++ " must be at least " ++ toString n ++
        " characters long")) := by
  unfold validate_min_length
  rw [if_pos (Or.inr h)]

theorem validate_email_cases (e : String) :
    validate_email e = .ok () ∨
      validate_email e = .error (.validation "Invalid email address") := by
  unfold validate_email
  split
  · exact Or.inr rfl
  · exact Or.inl rfl

theorem validate_email_ok_iff (e : String) :
    validate_email e = .ok () ↔ '@' ∈ e.data := by
  unfold validate_email
  by_cases h : '@' ∈ e.data
  · rw [if_neg]
    · simp [h]
    · rw [not_or]
      refine ⟨?_, by simpa using h⟩
      rintro rfl
      exact absurd h (by decide)
  · rw [if_pos (Or.inr h)]
    constructor
    · intro hc
      simp at hc
    · intro hc
      exact absurd hc h

theorem validate_email_err (e : String) (h : '@' ∉ e.data) :
    validate_email e = .error (.validation "Invalid email address") := by
  unfold validate_email
  rw [if_pos (Or.inr h)]

theorem validate_positive_number_cases (v : ℚ) (f : String) :
    validate_positive_number v f = .ok () ∨
      validate_positive_number v f =
        .error (.validation (f ++ " must be greater than 0")) := by
  unfold validate_positive_number
  split
  · exact Or.inr rfl
  · exact Or.inl rfl

theorem validate_positive_number_ok_iff (v : ℚ) (f : String) :
    validate_positive_number v f = .ok () ↔ 0 < v := by
  unfold validate_positive_number
  by_cases h : 0 < v
  · rw [if_neg]
    · simp [h]
    · rw [not_or]
      exact ⟨fun h0 => absurd h (by rw [h0]; exact lt_irrefl 0),
        not_le.mpr h⟩
  · rw [if_pos (Or.inr (not_lt.mp h))]
    constructor
    · intro hc
      simp at hc
    · intro hc
      exact absurd hc h

theorem validate_positive_number_err (v : ℚ) (f : String) (h : v ≤ 0) :
    validate_positive_number v f =
      .error (.validation (f ++ " must be greater than 0")) := by
  unfold validate_positive_number
  rw [if_pos (Or.inr h)]

/-! ### Shape lemmas for the base-manager operations -/

theorem create_record_fst {δ : Type} (m : Manager δ) (d : δ)
    (t1 t2 : String) :
    (create_record m d t1 t2).1 =
      { id := m.id_counter + 1, data := d, created_at := t1,
        updated_at := t2 } := rfl

theorem create_record_counter {δ : Type} (m : Manager δ) (d : δ)
    (t1 t2 : String) :
    (create_record m d t1 t2).2.id_counter = m.id_counter + 1 := rfl

theorem create_record_storage {δ : Type} (m : Manager δ) (d : δ)
    (t1 t2 : String) (k : Nat) :
    (create_record m d t1 t2).2.storage k =
      if k = m.id_counter + 1 then some (create_record m d t1 t2).1
      else m.storage k := rfl

theorem update_record_none {δ : Type} (m : Manager δ) (i : Nat)
    (f : δ → δ) (t n : String) (h : m.storage i = none) :
    update_record m i f t n = (.error (.notFound (n ++ " not found")), m) := by
  unfold update_record
  rw [h]

theorem update_record_some {δ : Type} (m : Manager δ) {i : Nat}
    (f : δ → δ) (t n : String) {rec : Record δ}
    (h : m.storage i = some rec) :
    update_record m i f t n =
      (.ok { rec with data := f rec.data, updated_at := t },
       { m with
         storage := fun k =>
           if k = i then
             some { rec with data := f rec.data, updated_at := t }
           else m.storage k }) := by
  unfold update_record
  rw [h]

theorem get_record_none {δ : Type} (m : Manager δ) (i : Nat) (n : String)
    (h : m.storage i = none) :
    get_record m i n = (.error (.notFound (n ++ " not found")), m) := by
  unfold get_record
  rw [h]

theorem get_record_some {δ : Type} (m : Manager δ) {i : Nat} (n : String)
    {rec : Record δ} (h : m.storage i = some rec) :
    get_record m i n = (.ok rec, m) := by
  unfold get_record
  rw [h]

/-- `create_user` either raises a validation error leaving the state
untouched, or (when the three validators pass) performs exactly
`_create_record` on the three fields. -/
theorem create_user_shape (m : UserManager) (u e p t1 t2 : String) :
    (∃ msg, create_user m u e p t1 t2 = (.error (.validation msg), m)) ∨
    (validate_min_length u 3 "Username" = .ok () ∧
     validate_email e = .ok () ∧
     validate_min_length p 8 "Password" = .ok () ∧
     create_user m u e p t1 t2 =
       (.ok (create_record m ⟨u, e, p⟩ t1 t2).1,
        (create_record m ⟨u, e, p⟩ t1 t2).2)) := by
  rcases validate_min_length_cases u 3 "Username" with h1 | h1
  · rcases validate_email_cases e with h2 | h2
    · rcases validate_min_length_cases p 8 "Password" with h3 | h3
      · right
        exact ⟨h1, h2, h3, by unfold create_user; rw [h1, h2, h3]⟩
      · left
        exact ⟨_, by unfold create_user; rw [h1, h2, h3]⟩
    · left
      exact ⟨_, by unfold create_user; rw [h1, h2]⟩
  · left
    exact ⟨_, by unfold create_user; rw [h1]⟩

/-- `create_product` analogue of `create_user_shape`. -/
theorem create_product_shape (m : ProductManager) (n d : String) (pr : ℚ)
    (t1 t2 : String) :
    (∃ msg, create_product m n d pr t1 t2 = (.error (.validation msg), m)) ∨
    (validate_min_length n 3 "Product name" = .ok () ∧
     validate_min_length d 10 "Description" = .ok () ∧
     validate_positive_number pr "Price" = .ok () ∧
     create_product m n d pr t1 t2 =
       (.ok (create_record m ⟨n, d, pr⟩ t1 t2).1,
        (create_record m ⟨n, d, pr⟩ t1 t2).2)) := by
  rcases validate_min_length_cases n 3 "Product name" with h1 | h1
  · rcases validate_min_length_cases d 10 "Description" with h2 | h2
    · rcases validate_positive_number_cases pr "Price" with h3 | h3
      · right
        exact ⟨h1, h2, h3, by unfold create_product; rw [h1, h2, h3]⟩
      · left
        exact ⟨_, by unfold create_product; rw [h1, h2, h3]⟩
    · left
      exact ⟨_, by unfold create_product; rw [h1, h2]⟩
  · left
    exact ⟨_, by unfold create_product; rw [h1]⟩

/-- `update_user` either raises a validation error leaving the state
untouched, or (when every provided field passes its validator) performs
exactly `_update_record` with the non-`None` fields applied. -/
theorem update_user_shape (m : UserManager) (i : Nat)
    (u e p : Option String) (t : String) :
    (∃ msg, update_user m i u e p t = (.error (.validation msg), m)) ∨
    ((∀ x, u = some x → validate_min_length x 3 "Username" = .ok ()) ∧
     (∀ x, e = some x → validate_email x = .ok ()) ∧
     (∀ x, p = some x → validate_min_length x 8 "Password" = .ok ()) ∧
     update_user m i u e p t =
       update_record m i (applyUserUpdates u e p) t "User") := by
  have c1 : Option.elim u (Except.ok ())
        (fun x => validate_min_length x 3 "Username") = .ok () ∨
      ∃ msg, Option.elim u (Except.ok ())
        (fun x => validate_min_length x 3 "Username") =
          .error (ManagerError.validation msg) := by
    cases u with
    | none => exact Or.inl rfl
    | some x =>
      rcases validate_min_length_cases x 3 "Username" with h | h
      · exact Or.inl h
      · exact Or.inr ⟨_, h⟩
  have c2 : Option.elim e (Except.ok ()) (fun x => validate_email x) =
        .ok () ∨
      ∃ msg, Option.elim e (Except.ok ()) (fun x => validate_email x) =
        .error (ManagerError.validation msg) := by
    cases e with
    | none => exact Or.inl rfl
    | some x =>
      rcases validate_email_cases x with h | h
      · exact Or.inl h
      · exact Or.inr ⟨_, h⟩
  have c3 : Option.elim p (Except.ok ())
        (fun x => validate_min_length x 8 "Password") = .ok () ∨
      ∃ msg, Option.elim p (Except.ok ())
        (fun x => validate_min_length x 8 "Password") =
          .error (ManagerError.validation msg) := by
    cases p with
    | none => exact Or.inl rfl
    | some x =>
      rcases validate_min_length_cases x 8 "Password" with h | h
      · exact Or.inl h
      · exact Or.inr ⟨_, h⟩
  rcases c1 with h1 | ⟨msg1, h1⟩
  · rcases c2 with h2 | ⟨msg2, h2⟩
    · rcases c3 with h3 | ⟨msg3, h3⟩
      · right
        refine ⟨?_, ?_, ?_, by unfold update_user; rw [h1, h2, h3]⟩
        · intro x hx
          rw [hx] at h1
          exact h1
        · intro x hx
          rw [hx] at h2
          exact h2
        · intro x hx
          rw [hx] at h3
          exact h3
      · left
        exact ⟨_, by unfold update_user; rw [h1, h2, h3]⟩
    · left
      exact ⟨_, by unfold update_user; rw [h1, h2]⟩
  · left
    exact ⟨_, by unfold update_user; rw [h1]⟩

/-- `update_product` analogue of `update_user_shape`. -/
theorem update_product_shape (m : ProductManager) (i : Nat)
    (n d : Option String) (pr : Option ℚ) (t : String) :
    (∃ msg, update_product m i n d pr t = (.error (.validation msg), m)) ∨
    ((∀ x, n = some x → validate_min_length x 3 "Product name" = .ok ()) ∧
     (∀ x, d = some x → validate_min_length x 10 "Description" = .ok ()) ∧
     (∀ x, pr = some x → validate_positive_number x "Price" = .ok ()) ∧
     update_product m i n d pr t =
       update_record m i (applyProductUpdates n d pr) t "Product") := by
  have c1 : Option.elim n (Except.ok ())
        (fun x => validate_min_length x 3 "Product name") = .ok () ∨
      ∃ msg, Option.elim n (Except.ok ())
        (fun x => validate_min_length x 3 "Product name") =
          .error (ManagerError.validation msg) := by
    cases n with
    | none => exact Or.inl rfl
    | some x =>
      rcases validate_min_length_cases x 3 "Product name" with h | h
      · exact Or.inl h
      · exact Or.inr ⟨_, h⟩
  have c2 : Option.elim d (Except.ok ())
        (fun x => validate_min_length x 10 "Description") = .ok () ∨
      ∃ msg, Option.elim d (Except.ok ())
        (fun x => validate_min_length x 10 "Description") =
          .error (ManagerError.validation msg) := by
    cases d with
    | none => exact Or.inl rfl
    | some x =>
      rcases validate_min_length_cases x 10 "Description" with h | h
      · exact Or.inl h
      · exact Or.inr ⟨_, h⟩
  have c3 : Option.elim pr (Except.ok ())
        (fun x => validate_positive_number x "Price") = .ok () ∨
      ∃ msg, Option.elim pr (Except.ok ())
        (fun x => validate_positive_number x "Price") =
          .error (ManagerError.validation msg) := by
    cases pr with
    | none => exact Or.inl rfl
    | some x =>
      rcases validate_positive_number_cases x "Price" with h | h
      · exact Or.inl h
      · exact Or.inr ⟨_, h⟩
  rcases c1 with h1 | ⟨msg1, h1⟩
  · rcases c2 with h2 | ⟨msg2, h2⟩
    · rcases c3 with h3 | ⟨msg3, h3⟩
      · right
        refine ⟨?_, ?_, ?_, by unfold update_product; rw [h1, h2, h3]⟩
        · intro x hx
          rw [hx] at h1
          exact h1
        · intro x hx
          rw [hx] at h2
          exact h2
        · intro x hx
          rw [hx] at h3
          exact h3
      · left
        exact ⟨_, by unfold update_product; rw [h1, h2, h3]⟩
    · left
      exact ⟨_, by unfold update_product; rw [h1, h2]⟩
  · left
    exact ⟨_, by unfold update_product; rw [h1]⟩

/-- When the three validators pass, `create_user` is exactly
`_create_record` on the three fields. -/
theorem create_user_ok_of {m : UserManager} {u e p t1 t2 : String}
    (hu : validate_min_length u 3 "Username" = .ok ())
    (he : validate_email e = .ok ())
    (hp : validate_min_length p 8 "Password" = .ok ()) :
    create_user m u e p t1 t2 =
      (.ok (create_record m ⟨u, e, p⟩ t1 t2).1,
       (create_record m ⟨u, e, p⟩ t1 t2).2) := by
  unfold create_user
  rw [hu, he, hp]

/-- When the three validators pass, `create_product` is exactly
`_create_record` on the three fields. -/
theorem create_product_ok_of {m : ProductManager} {n d : String} {pr : ℚ}
    {t1 t2 : String}
    (hn : validate_min_length n 3 "Product name" = .ok ())
    (hd : validate_min_length d 10 "Description" = .ok ())
    (hp : validate_positive_number pr "Price" = .ok ()) :
    create_product m n d pr t1 t2 =
      (.ok (create_record m ⟨n, d, pr⟩ t1 t2).1,
       (create_record m ⟨n, d, pr⟩ t1 t2).2) := by
  unfold create_product
  rw [hn, hd, hp]

/-- When every provided field passes its validator, `update_user` is
exactly `_update_record`. -/
theorem update_user_run_of {m : UserManager} {i : Nat}
    {u e p : Option String} {t : String}
    (hu : ∀ x, u = some x → validate_min_length x 3 "Username" = .ok ())
    (he : ∀ x, e = some x → validate_email x = .ok ())
    (hp : ∀ x, p = some x → validate_min_length x 8 "Password" = .ok ()) :
    update_user m i u e p t =
      update_record m i (applyUserUpdates u e p) t "User" := by
  have h1 : Option.elim u (Except.ok ())
      (fun x => validate_min_length x 3 "Username") = .ok () := by
    cases u with
    | none => rfl
    | some x => exact hu x rfl
  have h2 : Option.elim e (Except.ok ()) (fun x => validate_email x) =
      .ok () := by
    cases e with
    | none => rfl
    | some x => exact he x rfl
  have h3 : Option.elim p (Except.ok ())
      (fun x => validate_min_length x 8 "Password") = .ok () := by
    cases p with
    | none => rfl
    | some x => exact hp x rfl
  unfold update_user
  rw [h1, h2, h3]

/-- When every provided field passes its validator, `update_product` is
exactly `_update_record`. -/
theorem update_product_run_of {m : ProductManager} {i : Nat}
    {n d : Option String} {pr : Option ℚ} {t : String}
    (hn : ∀ x, n = some x → validate_min_length x 3 "Product name" = .ok ())
    (hd : ∀ x, d = some x → validate_min_length x 10 "Description" = .ok ())
    (hp : ∀ x, pr = some x → validate_positive_number x "Price" = .ok ()) :
    update_product m i n d pr t =
      update_record m i (applyProductUpdates n d pr) t "Product" := by
  have h1 : Option.elim n (Except.ok ())
      (fun x => validate_min_length x 3 "Product name") = .ok () := by
    cases n with
    | none => rfl
    | some x => exact hn x rfl
  have h2 : Option.elim d (Except.ok ())
      (fun x => validate_min_length x 10 "Description") = .ok () := by
    cases d with
    | none => rfl
    | some x => exact hd x rfl
  have h3 : Option.elim pr (Except.ok ())
      (fun x => validate_positive_number x "Price") = .ok () := by
    cases pr with
    | none => rfl
    | some x => exact hp x rfl
  unfold update_product
  rw [h1, h2, h3]

/-- A successful `create_user` returns the id `counter + 1` and leaves the
counter at that value. -/
theorem create_user_ok_id {m : UserManager} {u e p t1 t2 : String}
    {rec : Record UserData}
    (h : (create_user m u e p t1 t2).1 = .ok rec) :
    rec.id = m.id_counter + 1 ∧
      (create_user m u e p t1 t2).2.id_counter = m.id_counter + 1 := by
  rcases create_user_shape m u e p t1 t2 with ⟨msg, hs⟩ | ⟨_, _, _, hs⟩
  · rw [hs] at h
    exact absurd h (by simp)
  · rw [hs] at h ⊢
    simp only [Except.ok.injEq] at h
    subst h
    exact ⟨rfl, rfl⟩

/-- A successful `create_product` returns the id `counter + 1` and leaves
the counter at that value. -/
theorem create_product_ok_id {m : ProductManager} {n d : String} {pr : ℚ}
    {t1 t2 : String} {rec : Record ProductData}
    (h : (create_product m n d pr t1 t2).1 = .ok rec) :
    rec.id = m.id_counter + 1 ∧
      (create_product m n d pr t1 t2).2.id_counter = m.id_counter + 1 := by
  rcases create_product_shape m n d pr t1 t2 with ⟨msg, hs⟩ | ⟨_, _, _, hs⟩
  · rw [hs] at h
    exact absurd h (by simp)
  · rw [hs] at h ⊢
    simp only [Except.ok.injEq] at h
    subst h
    exact ⟨rfl, rfl⟩

/-- C7: the per-field validation rules are exactly: string fields fail with
ValidationError (naming the field) unless their length reaches the fixed
minimum (username/name ≥ 3, description ≥ 10, password ≥ 8), price fails
unless strictly positive, and email fails unless it contains an `@`
character, with no further checking.  Stated as: the create operations
succeed exactly on inputs satisfying those rules, and each validator
accepts exactly the values its rule allows, producing the field-naming
message otherwise. -/
theorem spec_C7_validation_rules :
    (∀ (m : UserManager) (u e p t1 t2 : String),
        (∃ r m', create_user m u e p t1 t2 = (.ok r, m')) ↔
          3 ≤ u.length ∧ '@' ∈ e.data ∧ 8 ≤ p.length) ∧
    (∀ (m : ProductManager) (n d : String) (pr : ℚ) (t1 t2 : String),
        (∃ r m', create_product m n d pr t1 t2 = (.ok r, m')) ↔
          3 ≤ n.length ∧ 10 ≤ d.length ∧ 0 < pr) ∧
    (∀ (v : String) (n : Nat) (f : String), 1 ≤ n →
        (validate_min_length v n f = .ok () ↔ n ≤ v.length) ∧
        (v.length < n →
          validate_min_length v n f =
            .error (.validation (f ++ " must be at least " ++ toString n ++
              " characters long")))) ∧
    (∀ (v : ℚ) (f : String),
        (validate_positive_number v f = .ok () ↔ 0 < v) ∧
        (v ≤ 0 →
          validate_positive_number v f =
            .error (.validation (f ++ " must be greater than 0")))) ∧
    (∀ e : String,
        (validate_email e = .ok () ↔ '@' ∈ e.data) ∧
        ('@' ∉ e.data →
          validate_email e = .error (.validation "Invalid email address"))) := by
  refine ⟨?_, ?_, ?_, ?_, ?_⟩
  · intro m u e p t1 t2
    constructor
    · rintro ⟨r, m', h⟩
      rcases create_user_shape m u e p t1 t2 with ⟨msg, hs⟩ | ⟨h1, h2, h3, hs⟩
      · rw [hs] at h
        simp at h
      · exact ⟨(validate_min_length_ok_iff u 3 "Username" (by omega)).mp h1,
          (validate_email_ok_iff e).mp h2,
          (validate_min_length_ok_iff p 8 "Password" (by omega)).mp h3⟩
    · rintro ⟨h1, h2, h3⟩
      exact ⟨_, _, create_user_ok_of
        ((validate_min_length_ok_iff u 3 "Username" (by omega)).mpr h1)
        ((validate_email_ok_iff e).mpr h2)
        ((validate_min_length_ok_iff p 8 "Password" (by omega)).mpr h3)⟩
  · intro m n d pr t1 t2
    constructor
    · rintro ⟨r, m', h⟩
      rcases create_product_shape m n d pr t1 t2 with ⟨msg, hs⟩ | ⟨h1, h2, h3, hs⟩
      · rw [hs] at h
        simp at h
      · exact ⟨(validate_min_length_ok_iff n 3 "Product name" (by omega)).mp h1,
          (validate_min_length_ok_iff d 10 "Description" (by omega)).mp h2,
          (validate_positive_number_ok_iff pr "Price").mp h3⟩
    · rintro ⟨h1, h2, h3⟩
      exact ⟨_, _, create_product_ok_of
        ((validate_min_length_ok_iff n 3 "Product name" (by omega)).mpr h1)
        ((validate_min_length_ok_iff d 10 "Description" (by omega)).mpr h2)
        ((validate_positive_number_ok_iff pr "Price").mpr h3)⟩
  · intro v n f hn
    exact ⟨validate_min_length_ok_iff v n f hn, validate_min_length_err v n f⟩
  · intro v f
    exact ⟨validate_positive_number_ok_iff v f, validate_positive_number_err v f⟩
  · intro e
    exact ⟨validate_email_ok_iff e, validate_email_err e⟩

/-- Witness for C7 at concrete inputs: a valid user creation succeeds. -/
theorem spec_C7_validation_rules_witness :
    ∃ r m', create_user freshManager "alice" "a@b.com" "password123"
      "T1" "T2" = (.ok r, m') :=
  (spec_C7_validation_rules.1 freshManager "alice" "a@b.com" "password123"
    "T1" "T2").mpr ⟨by decide, by decide, by decide⟩

/-- C4: a create call that fails validation raises ValidationError, leaves
the state (store and id counter) exactly as it was, and a subsequent
create behaves as if the failed attempt never happened.  The third part
is the spec's concrete example. -/
theorem spec_C4_create_failure_no_effect :
    (∀ (m : UserManager) (u e p t1 t2 : String) (err : ManagerError)
        (m' : UserManager),
        create_user m u e p t1 t2 = (.error err, m') →
        (∃ msg, err = .validation msg) ∧ m' = m ∧
          ∀ u2 e2 p2 s1 s2,
            create_user m' u2 e2 p2 s1 s2 = create_user m u2 e2 p2 s1 s2) ∧
    (∀ (m : ProductManager) (n d : String) (pr : ℚ) (t1 t2 : String)
        (err : ManagerError) (m' : ProductManager),
        create_product m n d pr t1 t2 = (.error err, m') →
        (∃ msg, err = .validation msg) ∧ m' = m ∧
          ∀ n2 d2 pr2 s1 s2,
            create_product m' n2 d2 pr2 s1 s2 =
              create_product m n2 d2 pr2 s1 s2) ∧
    (∀ t1 t2 : String,
        create_user freshManager "ab" "a@b.com" "longpassword" t1 t2 =
          (.error (.validation "Username must be at least 3 characters long"),
           freshManager)) := by
  refine ⟨?_, ?_, ?_⟩
  · intro m u e p t1 t2 err m' h
    rcases create_user_shape m u e p t1 t2 with ⟨msg, hs⟩ | ⟨_, _, _, hs⟩
    · rw [hs] at h
      simp only [Prod.mk.injEq, Except.error.injEq] at h
      obtain ⟨h1, h2⟩ := h
      subst h2
      exact ⟨⟨msg, h1.symm⟩, rfl, fun _ _ _ _ _ => rfl⟩
    · rw [hs] at h
      simp at h
  · intro m n d pr t1 t2 err m' h
    rcases create_product_shape m n d pr t1 t2 with ⟨msg, hs⟩ | ⟨_, _, _, hs⟩
    · rw [hs] at h
      simp only [Prod.mk.injEq, Except.error.injEq] at h
      obtain ⟨h1, h2⟩ := h
      subst h2
      exact ⟨⟨msg, h1.symm⟩, rfl, fun _ _ _ _ _ => rfl⟩
    · rw [hs] at h
      simp at h
  · intro t1 t2
    have h := validate_min_length_err "ab" 3 "Username" (by decide)
    have hmsg : ("Username" ++ " must be at least " ++ toString 3 ++
        " characters long") = "Username must be at least 3 characters long" := by
      decide
    rw [hmsg] at h
    unfold create_user
    rw [h]

/-- Witness for C4 at a concrete failing create. -/
theorem spec_C4_create_failure_no_effect_witness :
    ∃ msg, ManagerError.validation
        "Username must be at least 3 characters long" =
      ManagerError.validation msg :=
  (spec_C4_create_failure_no_effect.1 freshManager "ab" "a@b.com"
    "longpassword" "T1" "T2"
    (.validation "Username must be at least 3 characters long") freshManager
    (spec_C4_create_failure_no_effect.2.2 "T1" "T2")).1

/-- C8: updating an existing record with every optional field unset
succeeds, leaves the id, domain fields and `created_at` unchanged, and
only refreshes `updated_at`; no other entry of the store changes. -/
theorem spec_C8_unset_update_noop :
    (∀ (m : UserManager) (i : Nat) (rec : Record UserData) (t : String),
        m.storage i = some rec →
        update_user m i none none none t =
          (.ok { rec with updated_at := t },
           { m with storage := fun k =>
               if k = i then some { rec with updated_at := t }
               else m.storage k })) ∧
    (∀ (m : ProductManager) (i : Nat) (rec : Record ProductData) (t : String),
        m.storage i = some rec →
        update_product m i none none none t =
          (.ok { rec with updated_at := t },
           { m with storage := fun k =>
               if k = i then some { rec with updated_at := t }
               else m.storage k })) := by
  constructor
  · intro m i rec t h
    have hrun := @update_user_run_of m i none none none t
      (fun x hx => Option.noConfusion hx) (fun x hx => Option.noConfusion hx)
      (fun x hx => Option.noConfusion hx)
    rw [hrun, update_record_some m (applyUserUpdates none none none) t "User" h]
    rfl
  · intro m i rec t h
    have hrun := @update_product_run_of m i none none none t
      (fun x hx => Option.noConfusion hx) (fun x hx => Option.noConfusion hx)
      (fun x hx => Option.noConfusion hx)
    rw [hrun,
      update_record_some m (applyProductUpdates none none none) t "Product" h]
    rfl

/-- Witness for C8: a concrete all-unset update on a freshly created user. -/
theorem spec_C8_unset_update_noop_witness :
    update_user
        (create_user freshManager "alice" "a@b.com" "password123"
          "T1" "T2").2 1 none none none "T3" =
      (.ok { id := 1,
             data := ⟨"alice", "a@b.com", "password123"⟩,
             created_at := "T1", updated_at := "T3" },
       { (create_user freshManager "alice" "a@b.com" "password123"
            "T1" "T2").2 with
         storage := fun k =>
           if k = 1 then
             some { id := 1,
                    data := ⟨"alice", "a@b.com", "password123"⟩,
                    created_at := "T1", updated_at := "T3" }
           else (create_user freshManager "alice" "a@b.com" "password123"
                  "T1" "T2").2.storage k }) :=
  spec_C8_unset_update_noop.1
    (create_user freshManager "alice" "a@b.com" "password123" "T1" "T2").2 1
    ⟨1, ⟨"alice", "a@b.com", "password123"⟩, "T1", "T2"⟩ "T3" (by decide)

/-- C6: an update call with an invalid explicitly provided field raises
ValidationError and performs no mutation: the state returned is exactly
the state before the call.  The third part is the spec's concrete
example: after `create_product("Widget", "A useful widget", 19.99)`,
updating with `price = -10` fails and the stored price stays `19.99`. -/
theorem spec_C6_update_validation_no_mutation :
    (∀ (m : UserManager) (i : Nat) (u e p : Option String) (t : String),
        ((∃ x, u = some x ∧ x.length < 3) ∨
         (∃ x, e = some x ∧ '@' ∉ x.data) ∨
         (∃ x, p = some x ∧ x.length < 8)) →
        ∃ msg, update_user m i u e p t = (.error (.validation msg), m)) ∧
    (∀ (m : ProductManager) (i : Nat) (n d : Option String) (pr : Option ℚ)
        (t : String),
        ((∃ x, n = some x ∧ x.length < 3) ∨
         (∃ x, d = some x ∧ x.length < 10) ∨
         (∃ x, pr = some x ∧ x ≤ 0)) →
        ∃ msg, update_product m i n d pr t = (.error (.validation msg), m)) ∧
    (∀ t1 t2 t3 : String,
        ∃ rec : Record ProductData,
          (create_product freshManager "Widget" "A useful widget" (1999/100)
            t1 t2).2.storage 1 = some rec ∧
          rec.data.price = 1999/100 ∧
          update_product
              (create_product freshManager "Widget" "A useful widget"
                (1999/100) t1 t2).2 1 none none (some (-10)) t3 =
            (.error (.validation "Price must be greater than 0"),
             (create_product freshManager "Widget" "A useful widget"
               (1999/100) t1 t2).2)) := by
  refine ⟨?_, ?_, ?_⟩
  · intro m i u e p t hinv
    rcases update_user_shape m i u e p t with ⟨msg, hs⟩ | ⟨hu, he, hp, _⟩
    · exact ⟨msg, hs⟩
    · rcases hinv with ⟨x, hx, hbad⟩ | ⟨x, hx, hbad⟩ | ⟨x, hx, hbad⟩
      · exact absurd
          ((validate_min_length_ok_iff x 3 "Username" (by omega)).mp (hu x hx))
          (by omega)
      · exact absurd ((validate_email_ok_iff x).mp (he x hx)) hbad
      · exact absurd
          ((validate_min_length_ok_iff x 8 "Password" (by omega)).mp (hp x hx))
          (by omega)
  · intro m i n d pr t hinv
    rcases update_product_shape m i n d pr t with ⟨msg, hs⟩ | ⟨hn, hd, hp, _⟩
    · exact ⟨msg, hs⟩
    · rcases hinv with ⟨x, hx, hbad⟩ | ⟨x, hx, hbad⟩ | ⟨x, hx, hbad⟩
      · exact absurd
          ((validate_min_length_ok_iff x 3 "Product name" (by omega)).mp
            (hn x hx))
          (by omega)
      · exact absurd
          ((validate_min_length_ok_iff x 10 "Description" (by omega)).mp
            (hd x hx))
          (by omega)
      · exact absurd ((validate_positive_number_ok_iff x "Price").mp (hp x hx))
          (not_lt.mpr hbad)
  · intro t1 t2 t3
    have h1 : validate_min_length "Widget" 3 "Product name" = .ok () :=
      (validate_min_length_ok_iff "Widget" 3 "Product name" (by omega)).mpr
        (by decide)
    have h2 : validate_min_length "A useful widget" 10 "Description" =
        .ok () :=
      (validate_min_length_ok_iff "A useful widget" 10 "Description"
        (by omega)).mpr (by decide)
    have h3 : validate_positive_number (1999/100) "Price" = .ok () :=
      (validate_positive_number_ok_iff (1999/100) "Price").mpr (by norm_num)
    have hcp := @create_product_ok_of freshManager "Widget" "A useful widget"
      (1999/100) t1 t2 h1 h2 h3
    have hst : (create_product freshManager "Widget" "A useful widget"
        (1999/100) t1 t2).2.storage 1 =
        some { id := 1, data := ⟨"Widget", "A useful widget", 1999/100⟩,
               created_at := t1, updated_at := t2 } := by
      rw [hcp]
      rfl
    refine ⟨_, hst, rfl, ?_⟩
    have hmsg : ("Price" ++ " must be greater than 0") =
        "Price must be greater than 0" := by decide
    have herr : Option.elim (some (-10 : ℚ)) (Except.ok ())
        (fun x => validate_positive_number x "Price") =
        .error (.validation "Price must be greater than 0") := by
      rw [show Option.elim (some (-10 : ℚ)) (Except.ok ())
          (fun x => validate_positive_number x "Price") =
          validate_positive_number (-10) "Price" from rfl,
        validate_positive_number_err (-10) "Price" (by norm_num), hmsg]
    unfold update_product
    rw [herr]
    rfl

/-- Witness for C6 at a concrete invalid update. -/
theorem spec_C6_update_validation_no_mutation_witness :
    ∃ msg, update_user freshManager 1 (some "ab") none none "T1" =
      (.error (.validation msg), freshManager) :=
  spec_C6_update_validation_no_mutation.1 freshManager 1 (some "ab") none
    none "T1" (Or.inl ⟨"ab", rfl, by decide⟩)

/-- C9: when an update call has both an invalid explicitly provided field
and an id that is absent from the store, the error raised is a
ValidationError carrying one of the field-validation messages — not
NotFound — and the state (store and id counter) is returned unchanged:
field validation runs before the existence check. -/
theorem spec_C9_validation_precedes_existence :
    (∀ (m : UserManager) (i : Nat) (u e p : Option String) (t : String),
        m.storage i = none →
        ((∃ x, u = some x ∧ x.length < 3) ∨
         (∃ x, e = some x ∧ '@' ∉ x.data) ∨
         (∃ x, p = some x ∧ x.length < 8)) →
        ∃ msg, update_user m i u e p t = (.error (.validation msg), m) ∧
          (msg = "Username must be at least 3 characters long" ∨
           msg = "Invalid email address" ∨
           msg = "Password must be at least 8 characters long")) ∧
    (∀ (m : ProductManager) (i : Nat) (n d : Option String) (pr : Option ℚ)
        (t : String),
        m.storage i = none →
        ((∃ x, n = some x ∧ x.length < 3) ∨
         (∃ x, d = some x ∧ x.length < 10) ∨
         (∃ x, pr = some x ∧ x ≤ 0)) →
        ∃ msg, update_product m i n d pr t = (.error (.validation msg), m) ∧
          (msg = "Product name must be at least 3 characters long" ∨
           msg = "Description must be at least 10 characters long" ∨
           msg = "Price must be greater than 0")) := by
  constructor
  · intro m i u e p t habs hinv
    have hUmsg : ("Username" ++ " must be at least " ++ toString 3 ++
        " characters long") = "Username must be at least 3 characters long" :=
      by decide
    have hPmsg : ("Password" ++ " must be at least " ++ toString 8 ++
        " characters long") = "Password must be at least 8 characters long" :=
      by decide
    by_cases hu : ∀ x, u = some x → 3 ≤ x.length
    · by_cases he' : ∀ x, e = some x → '@' ∈ x.data
      · by_cases hp : ∀ x, p = some x → 8 ≤ x.length
        · exfalso
          rcases hinv with ⟨x, hx, hbad⟩ | ⟨x, hx, hbad⟩ | ⟨x, hx, hbad⟩
          · exact absurd (hu x hx) (by omega)
          · exact absurd (he' x hx) hbad
          · exact absurd (hp x hx) (by omega)
        · push_neg at hp
          obtain ⟨x, hx, hbad⟩ := hp
          have h1 : Option.elim u (Except.ok ())
              (fun y => validate_min_length y 3 "Username") = .ok () := by
            cases u with
            | none => rfl
            | some y =>
              exact (validate_min_length_ok_iff y 3 "Username"
                (by omega)).mpr (hu y rfl)
          have h2 : Option.elim e (Except.ok ())
              (fun y => validate_email y) = .ok () := by
            cases e with
            | none => rfl
            | some y => exact (validate_email_ok_iff y).mpr (he' y rfl)
          have h3 : Option.elim p (Except.ok ())
              (fun y => validate_min_length y 8 "Password") =
              .error (.validation
                "Password must be at least 8 characters long") := by
            rw [hx]
            show validate_min_length x 8 "Password" = _
            rw [validate_min_length_err x 8 "Password" hbad, hPmsg]
          refine ⟨_, ?_, Or.inr (Or.inr rfl)⟩
          unfold update_user
          rw [h1, h2, h3]
      · push_neg at he'
        obtain ⟨x, hx, hbad⟩ := he'
        have h1 : Option.elim u (Except.ok ())
            (fun y => validate_min_length y 3 "Username") = .ok () := by
          cases u with
          | none => rfl
          | some y =>
            exact (validate_min_length_ok_iff y 3 "Username"
              (by omega)).mpr (hu y rfl)
        have h2 : Option.elim e (Except.ok ())
            (fun y => validate_email y) =
            .error (.validation "Invalid email address") := by
          rw [hx]
          exact validate_email_err x hbad
        refine ⟨_, ?_, Or.inr (Or.inl rfl)⟩
        unfold update_user
        rw [h1, h2]
    · push_neg at hu
      obtain ⟨x, hx, hbad⟩ := hu
      have h1 : Option.elim u (Except.ok ())
          (fun y => validate_min_length y 3 "Username") =
          .error (.validation
            "Username must be at least 3 characters long") := by
        rw [hx]
        show validate_min_length x 3 "Username" = _
        rw [validate_min_length_err x 3 "Username" hbad, hUmsg]
      refine ⟨_, ?_, Or.inl rfl⟩
      unfold update_user
      rw [h1]
  · intro m i n d pr t habs hinv
    have hNmsg : ("Product name" ++ " must be at least " ++ toString 3 ++
        " characters long") =
        "Product name must be at least 3 characters long" := by decide
    have hDmsg : ("Description" ++ " must be at least " ++ toString 10 ++
        " characters long") =
        "Description must be at least 10 characters long" := by decide
    have hPrmsg : ("Price" ++ " must be greater than 0") =
        "Price must be greater than 0" := by decide
    by_cases hn : ∀ x, n = some x → 3 ≤ x.length
    · by_cases hd : ∀ x, d = some x → 10 ≤ x.length
      · by_cases hp : ∀ x, pr = some x → 0 < x
        · exfalso
          rcases hinv with ⟨x, hx, hbad⟩ | ⟨x, hx, hbad⟩ | ⟨x, hx, hbad⟩
          · exact absurd (hn x hx) (by omega)
          · exact absurd (hd x hx) (by omega)
          · exact absurd (hp x hx) (not_lt.mpr hbad)
        · push_neg at hp
          obtain ⟨x, hx, hbad⟩ := hp
          have h1 : Option.elim n (Except.ok ())
              (fun y => validate_min_length y 3 "Product name") = .ok () := by
            cases n with
            | none => rfl
            | some y =>
              exact (validate_min_length_ok_iff y 3 "Product name"
                (by omega)).mpr (hn y rfl)
          have h2 : Option.elim d (Except.ok ())
              (fun y => validate_min_length y 10 "Description") = .ok () := by
            cases d with
            | none => rfl
            | some y =>
              exact (validate_min_length_ok_iff y 10 "Description"
                (by omega)).mpr (hd y rfl)
          have h3 : Option.elim pr (Except.ok ())
              (fun y => validate_positive_number y "Price") =
              .error (.validation "Price must be greater than 0") := by
            rw [hx]
            show validate_positive_number x "Price" = _
            rw [validate_positive_number_err x "Price" hbad, hPrmsg]
          refine ⟨_, ?_, Or.inr (Or.inr rfl)⟩
          unfold update_product
          rw [h1, h2, h3]
      · push_neg at hd
        obtain ⟨x, hx, hbad⟩ := hd
        have h1 : Option.elim n (Except.ok ())
            (fun y => validate_min_length y 3 "Product name") = .ok () := by
          cases n with
          | none => rfl
          | some y =>
            exact (validate_min_length_ok_iff y 3 "Product name"
              (by omega)).mpr (hn y rfl)
        have h2 : Option.elim d (Except.ok ())
            (fun y => validate_min_length y 10 "Description") =
            .error (.validation
              "Description must be at least 10 characters long") := by
          rw [hx]
          show validate_min_length x 10 "Description" = _
          rw [validate_min_length_err x 10 "Description" hbad, hDmsg]
        refine ⟨_, ?_, Or.inr (Or.inl rfl)⟩
        unfold update_product
        rw [h1, h2]
    · push_neg at hn
      obtain ⟨x, hx, hbad⟩ := hn
      have h1 : Option.elim n (Except.ok ())
          (fun y => validate_min_length y 3 "Product name") =
          .error (.validation
            "Product name must be at least 3 characters long") := by
        rw [hx]
        show validate_min_length x 3 "Product name" = _
        rw [validate_min_length_err x 3 "Product name" hbad, hNmsg]
      refine ⟨_, ?_, Or.inl rfl⟩
      unfold update_product
      rw [h1]

/-- Witness for C9 at a concrete call: absent id 1, invalid password. -/
theorem spec_C9_validation_precedes_existence_witness :
    ∃ msg, update_user freshManager 1 none none (some "short") "T1" =
        (.error (.validation msg), freshManager) ∧
      (msg = "Username must be at least 3 characters long" ∨
       msg = "Invalid email address" ∨
       msg = "Password must be at least 8 characters long") :=
  spec_C9_validation_precedes_existence.1 freshManager 1 none none
    (some "short") "T1" rfl (Or.inr (Or.inr ⟨"short", rfl, by decide⟩))

/-- A `Bool`-valued success test equivalent to the existence of an `ok`
result. -/
theorem isOk_iff_ok {δ : Type} (r : Except ManagerError (Record δ)) :
    r.isOk = true ↔ ∃ rec, r = .ok rec := by
  cases r with
  | error e => simp [Except.isOk, Except.toBool]
  | ok rec => simp [Except.isOk, Except.toBool]

/-- Ids returned by a run of creates started at counter `c` are
`c+1, c+2, ...` when every create succeeds. -/
theorem runUserCreates_ids
    (args : List (String × String × String × String × String)) :
    ∀ m : UserManager,
      (∀ r ∈ (runUserCreates m args).1, r.isOk = true) →
      (runUserCreates m args).1.map resultId =
        List.range' (m.id_counter + 1) args.length := by
  induction args with
  | nil =>
    intro m _
    rfl
  | cons a rest ih =>
    obtain ⟨u, e, p, t1, t2⟩ := a
    intro m hall
    have hq : runUserCreates m ((u, e, p, t1, t2) :: rest) =
        ((create_user m u e p t1 t2).1 ::
          (runUserCreates (create_user m u e p t1 t2).2 rest).1,
         (runUserCreates (create_user m u e p t1 t2).2 rest).2) := rfl
    rw [hq] at hall ⊢
    obtain ⟨rec, hrec⟩ :=
      (isOk_iff_ok _).mp (hall _ (List.mem_cons_self _ _))
    have hid := create_user_ok_id hrec
    have htail := ih (create_user m u e p t1 t2).2
      (fun r hr => hall r (List.mem_cons_of_mem _ hr))
    simp only [List.map_cons, List.length_cons]
    rw [htail, hid.2,
      show resultId (create_user m u e p t1 t2).1 = rec.id from by
        rw [hrec]
        rfl,
      hid.1, List.range'_succ (m.id_counter + 1) rest.length 1]

/-- Product analogue of `runUserCreates_ids`. -/
theorem runProductCreates_ids
    (args : List (String × String × ℚ × String × String)) :
    ∀ m : ProductManager,
      (∀ r ∈ (runProductCreates m args).1, r.isOk = true) →
      (runProductCreates m args).1.map resultId =
        List.range' (m.id_counter + 1) args.length := by
  induction args with
  | nil =>
    intro m _
    rfl
  | cons a rest ih =>
    obtain ⟨n, d, pr, t1, t2⟩ := a
    intro m hall
    have hq : runProductCreates m ((n, d, pr, t1, t2) :: rest) =
        ((create_product m n d pr t1 t2).1 ::
          (runProductCreates (create_product m n d pr t1 t2).2 rest).1,
         (runProductCreates (create_product m n d pr t1 t2).2 rest).2) := rfl
    rw [hq] at hall ⊢
    obtain ⟨rec, hrec⟩ :=
      (isOk_iff_ok _).mp (hall _ (List.mem_cons_self _ _))
    have hid := create_product_ok_id hrec
    have htail := ih (create_product m n d pr t1 t2).2
      (fun r hr => hall r (List.mem_cons_of_mem _ hr))
    simp only [List.map_cons, List.length_cons]
    rw [htail, hid.2,
      show resultId (create_product m n d pr t1 t2).1 = rec.id from by
        rw [hrec]
        rfl,
      hid.1, List.range'_succ (m.id_counter + 1) rest.length 1]

/-- C1: on a freshly constructed manager, the ids returned by any sequence
of successful creates are exactly `1, 2, 3, ...` in order: strictly
increasing from 1, no gaps, no reuse (`List.range' 1 k = [1, ..., k]`). -/
theorem spec_C1_ids_sequential :
    (∀ args : List (String × String × String × String × String),
        (∀ r ∈ (runUserCreates freshManager args).1, r.isOk = true) →
        (runUserCreates freshManager args).1.map resultId =
          List.range' 1 args.length) ∧
    (∀ args : List (String × String × ℚ × String × String),
        (∀ r ∈ (runProductCreates freshManager args).1, r.isOk = true) →
        (runProductCreates freshManager args).1.map resultId =
          List.range' 1 args.length) :=
  ⟨fun args hall => runUserCreates_ids args freshManager hall,
   fun args hall => runProductCreates_ids args freshManager hall⟩

/-- Witness for C1: two concrete successful creates return ids `[1, 2]`. -/
theorem spec_C1_ids_sequential_witness :
    (runUserCreates freshManager
        [("alice", "a@b.com", "password123", "T1", "T2"),
         ("bob42", "b@c.org", "secretpw9", "T3", "T4")]).1.map resultId =
      List.range' 1 2 :=
  spec_C1_ids_sequential.1
    [("alice", "a@b.com", "password123", "T1", "T2"),
     ("bob42", "b@c.org", "secretpw9", "T3", "T4")] (by decide)

/-- Run a sequence of `update_user` calls all targeting the record `i`,
collecting every result. -/
def runUserUpdatesOn (m : UserManager) (i : Nat) :
    List (Option String × Option String × Option String × String) →
      List (Except ManagerError (Record UserData)) × UserManager
  | [] => ([], m)
  | (u, e, p, t) :: rest =>
    let q := update_user m i u e p t
    let r := runUserUpdatesOn q.2 i rest
    (q.1 :: r.1, r.2)

/-- Run a sequence of `update_product` calls all targeting the record `i`. -/
def runProductUpdatesOn (m : ProductManager) (i : Nat) :
    List (Option String × Option String × Option ℚ × String) →
      List (Except ManagerError (Record ProductData)) × ProductManager
  | [] => ([], m)
  | (n, d, pr, t) :: rest =>
    let q := update_product m i n d pr t
    let r := runProductUpdatesOn q.2 i rest
    (q.1 :: r.1, r.2)

/-- A successful `update_user` keeps `created_at`, stamps `updated_at`
with the fresh timestamp, and stores the returned record at `i`. -/
theorem update_user_ok_step {m : UserManager} {i : Nat}
    {u e p : Option String} {t : String} {rec r : Record UserData}
    (hrec : m.storage i = some rec)
    (h : (update_user m i u e p t).1 = .ok r) :
    r.created_at = rec.created_at ∧ r.updated_at = t ∧
      (update_user m i u e p t).2.storage i = some r := by
  rcases update_user_shape m i u e p t with ⟨msg, hs⟩ | ⟨_, _, _, hs⟩
  · rw [hs] at h
    exact absurd h (by simp)
  · rw [hs] at h ⊢
    rw [update_record_some m (applyUserUpdates u e p) t "User" hrec] at h ⊢
    simp only [Except.ok.injEq] at h
    subst h
    exact ⟨rfl, rfl, by simp⟩

/-- Product analogue of `update_user_ok_step`. -/
theorem update_product_ok_step {m : ProductManager} {i : Nat}
    {n d : Option String} {pr : Option ℚ} {t : String}
    {rec r : Record ProductData}
    (hrec : m.storage i = some rec)
    (h : (update_product m i n d pr t).1 = .ok r) :
    r.created_at = rec.created_at ∧ r.updated_at = t ∧
      (update_product m i n d pr t).2.storage i = some r := by
  rcases update_product_shape m i n d pr t with ⟨msg, hs⟩ | ⟨_, _, _, hs⟩
  · rw [hs] at h
    exact absurd h (by simp)
  · rw [hs] at h ⊢
    rw [update_record_some m (applyProductUpdates n d pr) t "Product" hrec]
      at h ⊢
    simp only [Except.ok.injEq] at h
    subst h
    exact ⟨rfl, rfl, by simp⟩

/-- Across a sequence of successful updates of record `i`, `created_at`
never changes. -/
theorem runUserUpdatesOn_created_at
    (steps : List (Option String × Option String × Option String × String)) :
    ∀ (m : UserManager) (i : Nat) (rec : Record UserData),
      m.storage i = some rec →
      (∀ r ∈ (runUserUpdatesOn m i steps).1, r.isOk = true) →
      ∃ rec', (runUserUpdatesOn m i steps).2.storage i = some rec' ∧
        rec'.created_at = rec.created_at := by
  induction steps with
  | nil =>
    intro m i rec h _
    exact ⟨rec, h, rfl⟩
  | cons a rest ih =>
    obtain ⟨u, e, p, t⟩ := a
    intro m i rec h hall
    have hq : runUserUpdatesOn m i ((u, e, p, t) :: rest) =
        ((update_user m i u e p t).1 ::
          (runUserUpdatesOn (update_user m i u e p t).2 i rest).1,
         (runUserUpdatesOn (update_user m i u e p t).2 i rest).2) := rfl
    rw [hq] at hall ⊢
    obtain ⟨r, hr⟩ := (isOk_iff_ok _).mp (hall _ (List.mem_cons_self _ _))
    obtain ⟨hc, _, hst⟩ := update_user_ok_step h hr
    obtain ⟨rec', hrec', hc'⟩ := ih (update_user m i u e p t).2 i r hst
      (fun x hx => hall x (List.mem_cons_of_mem _ hx))
    exact ⟨rec', hrec', by rw [hc', hc]⟩

/-- Product analogue of `runUserUpdatesOn_created_at`. -/
theorem runProductUpdatesOn_created_at
    (steps : List (Option String × Option String × Option ℚ × String)) :
    ∀ (m : ProductManager) (i : Nat) (rec : Record ProductData),
      m.storage i = some rec →
      (∀ r ∈ (runProductUpdatesOn m i steps).1, r.isOk = true) →
      ∃ rec', (runProductUpdatesOn m i steps).2.storage i = some rec' ∧
        rec'.created_at = rec.created_at := by
  induction steps with
  | nil =>
    intro m i rec h _
    exact ⟨rec, h, rfl⟩
  | cons a rest ih =>
    obtain ⟨n, d, pr, t⟩ := a
    intro m i rec h hall
    have hq : runProductUpdatesOn m i ((n, d, pr, t) :: rest) =
        ((update_product m i n d pr t).1 ::
          (runProductUpdatesOn (update_product m i n d pr t).2 i rest).1,
         (runProductUpdatesOn (update_product m i n d pr t).2 i rest).2) := rfl
    rw [hq] at hall ⊢
    obtain ⟨r, hr⟩ := (isOk_iff_ok _).mp (hall _ (List.mem_cons_self _ _))
    obtain ⟨hc, _, hst⟩ := update_product_ok_step h hr
    obtain ⟨rec', hrec', hc'⟩ := ih (update_product m i n d pr t).2 i r hst
      (fun x hx => hall x (List.mem_cons_of_mem _ hx))
    exact ⟨rec', hrec', by rw [hc', hc]⟩

/-- C3: `created_at` keeps its creation value across every successful
update (single step and arbitrary sequences), while `updated_at` is
overwritten with the fresh timestamp on every successful update call —
including updates whose provided fields equal the stored values. -/
theorem spec_C3_created_at_immutable :
    (∀ (m : UserManager) (i : Nat) (rec : Record UserData)
        (u e p : Option String) (t : String) (r : Record UserData),
        m.storage i = some rec → (update_user m i u e p t).1 = .ok r →
        r.created_at = rec.created_at ∧ r.updated_at = t ∧
          (update_user m i u e p t).2.storage i = some r) ∧
    (∀ (m : ProductManager) (i : Nat) (rec : Record ProductData)
        (n d : Option String) (pr : Option ℚ) (t : String)
        (r : Record ProductData),
        m.storage i = some rec → (update_product m i n d pr t).1 = .ok r →
        r.created_at = rec.created_at ∧ r.updated_at = t ∧
          (update_product m i n d pr t).2.storage i = some r) ∧
    (∀ (steps : List (Option String × Option String × Option String ×
        String)) (m : UserManager) (i : Nat) (rec : Record UserData),
        m.storage i = some rec →
        (∀ r ∈ (runUserUpdatesOn m i steps).1, r.isOk = true) →
        ∃ rec', (runUserUpdatesOn m i steps).2.storage i = some rec' ∧
          rec'.created_at = rec.created_at) ∧
    (∀ (steps : List (Option String × Option String × Option ℚ × String))
        (m : ProductManager) (i : Nat) (rec : Record ProductData),
        m.storage i = some rec →
        (∀ r ∈ (runProductUpdatesOn m i steps).1, r.isOk = true) →
        ∃ rec', (runProductUpdatesOn m i steps).2.storage i = some rec' ∧
          rec'.created_at = rec.created_at) :=
  ⟨fun _ _ _ _ _ _ _ _ hrec h => update_user_ok_step hrec h,
   fun _ _ _ _ _ _ _ _ hrec h => update_product_ok_step hrec h,
   fun steps m i rec h hall =>
     runUserUpdatesOn_created_at steps m i rec h hall,
   fun steps m i rec h hall =>
     runProductUpdatesOn_created_at steps m i rec h hall⟩

/-- Witness for C3: a concrete update that re-submits the stored username
value still refreshes `updated_at` and keeps `created_at`. -/
theorem spec_C3_created_at_immutable_witness :
    ((⟨1, ⟨"alice", "a@b.com", "password123"⟩, "T1", "T3"⟩ :
        Record UserData).created_at =
      (⟨1, ⟨"alice", "a@b.com", "password123"⟩, "T1", "T2"⟩ :
        Record UserData).created_at) ∧
    ((⟨1, ⟨"alice", "a@b.com", "password123"⟩, "T1", "T3"⟩ :
        Record UserData).updated_at = "T3") ∧
    (update_user
        (create_user freshManager "alice" "a@b.com" "password123"
          "T1" "T2").2 1 (some "alice") none none "T3").2.storage 1 =
      some ⟨1, ⟨"alice", "a@b.com", "password123"⟩, "T1", "T3"⟩ :=
  spec_C3_created_at_immutable.1
    (create_user freshManager "alice" "a@b.com" "password123" "T1" "T2").2 1
    ⟨1, ⟨"alice", "a@b.com", "password123"⟩, "T1", "T2"⟩
    (some "alice") none none "T3"
    ⟨1, ⟨"alice", "a@b.com", "password123"⟩, "T1", "T3"⟩
    (by decide) (by decide)

/-- `_update_record` never adds a new id to the store. -/
theorem update_record_absent {δ : Type} (m : Manager δ) (i0 : Nat)
    (f : δ → δ) (t n : String) (i : Nat) (h : m.storage i = none) :
    (update_record m i0 f t n).2.storage i = none := by
  cases h0 : m.storage i0 with
  | none =>
    rw [update_record_none m i0 f t n h0]
    exact h
  | some rec =>
    rw [update_record_some m f t n h0]
    show (if i = i0 then _ else m.storage i) = none
    by_cases hii : i = i0
    · subst hii
      rw [h0] at h
      exact Option.noConfusion h
    · rw [if_neg hii]
      exact h

/-- `_get_record` returns the state unchanged. -/
theorem get_record_snd {δ : Type} (m : Manager δ) (i : Nat) (n : String) :
    (get_record m i n).2 = m := by
  cases h0 : m.storage i with
  | none => rw [get_record_none m i n h0]
  | some rec => rw [get_record_some m n h0]

/-- A single public user operation keeps an id absent unless it is the id
issued by that operation's successful create. -/
theorem stepUser_absent (m : UserManager) (op : UserOp) (i : Nat)
    (h : m.storage i = none) (hnot : i ∉ issuedUserIds m [op]) :
    (stepUser m op).2.storage i = none := by
  cases op with
  | create u e p t1 t2 =>
    rcases create_user_shape m u e p t1 t2 with ⟨msg, hs⟩ | ⟨_, _, _, hs⟩
    · show (create_user m u e p t1 t2).2.storage i = none
      rw [hs]
      exact h
    · show (create_user m u e p t1 t2).2.storage i = none
      rw [hs]
      rw [create_record_storage]
      have hnot' := hnot
      simp only [issuedUserIds, stepUser, hs, List.append_nil] at hnot'
      rw [create_record_fst] at hnot'
      simp only [List.mem_singleton] at hnot'
      rw [if_neg hnot']
      exact h
  | update i0 u e p t =>
    show (update_user m i0 u e p t).2.storage i = none
    rcases update_user_shape m i0 u e p t with ⟨msg, hs⟩ | ⟨_, _, _, hs⟩
    · rw [hs]
      exact h
    · rw [hs]
      exact update_record_absent m i0 _ t "User" i h
  | get i0 lbl =>
    show (get_record m i0 lbl).2.storage i = none
    rw [get_record_snd]
    exact h

/-- Product analogue of `stepUser_absent`. -/
theorem stepProduct_absent (m : ProductManager) (op : ProductOp) (i : Nat)
    (h : m.storage i = none) (hnot : i ∉ issuedProductIds m [op]) :
    (stepProduct m op).2.storage i = none := by
  cases op with
  | create n d pr t1 t2 =>
    rcases create_product_shape m n d pr t1 t2 with ⟨msg, hs⟩ | ⟨_, _, _, hs⟩
    · show (create_product m n d pr t1 t2).2.storage i = none
      rw [hs]
      exact h
    · show (create_product m n d pr t1 t2).2.storage i = none
      rw [hs]
      rw [create_record_storage]
      have hnot' := hnot
      simp only [issuedProductIds, stepProduct, hs, List.append_nil] at hnot'
      rw [create_record_fst] at hnot'
      simp only [List.mem_singleton] at hnot'
      rw [if_neg hnot']
      exact h
  | update i0 n d pr t =>
    show (update_product m i0 n d pr t).2.storage i = none
    rcases update_product_shape m i0 n d pr t with ⟨msg, hs⟩ | ⟨_, _, _, hs⟩
    · rw [hs]
      exact h
    · rw [hs]
      exact update_record_absent m i0 _ t "Product" i h
  | get i0 lbl =>
    show (get_record m i0 lbl).2.storage i = none
    rw [get_record_snd]
    exact h

/-- An id absent initially and never issued during a trace is still absent
from the store after the trace. -/
theorem runUser_absent (ops : List UserOp) :
    ∀ (m : UserManager) (i : Nat), m.storage i = none →
      i ∉ issuedUserIds m ops → (runUser m ops).storage i = none := by
  induction ops with
  | nil =>
    intro m i h _
    exact h
  | cons op rest ih =>
    intro m i h hnot
    have hsplit : issuedUserIds m (op :: rest) =
        issuedUserIds m [op] ++ issuedUserIds (stepUser m op).2 rest := by
      simp [issuedUserIds]
    rw [hsplit, List.mem_append] at hnot
    push_neg at hnot
    exact ih (stepUser m op).2 i (stepUser_absent m op i h hnot.1) hnot.2

/-- Product analogue of `runUser_absent`. -/
theorem runProduct_absent (ops : List ProductOp) :
    ∀ (m : ProductManager) (i : Nat), m.storage i = none →
      i ∉ issuedProductIds m ops → (runProduct m ops).storage i = none := by
  induction ops with
  | nil =>
    intro m i h _
    exact h
  | cons op rest ih =>
    intro m i h hnot
    have hsplit : issuedProductIds m (op :: rest) =
        issuedProductIds m [op] ++ issuedProductIds (stepProduct m op).2 rest := by
      simp [issuedProductIds]
    rw [hsplit, List.mem_append] at hnot
    push_neg at hnot
    exact ih (stepProduct m op).2 i
      (stepProduct_absent m op i h hnot.1) hnot.2

/-- C5: for an id never issued by the manager (over any trace of public
operations from a fresh instance), `_get_record` and the update operation
(with all provided fields valid) both fail with NotFound, the message is
the supplied entity label followed by " not found", and the state is
returned unchanged. -/
theorem spec_C5_never_issued_not_found :
    (∀ (ops : List UserOp) (i : Nat) (lbl : String)
        (u e p : Option String) (t : String),
        i ∉ issuedUserIds freshManager ops →
        (∀ x, u = some x → 3 ≤ x.length) →
        (∀ x, e = some x → '@' ∈ x.data) →
        (∀ x, p = some x → 8 ≤ x.length) →
        get_record (runUser freshManager ops) i lbl =
          (.error (.notFound (lbl ++ " not found")),
           runUser freshManager ops) ∧
        update_user (runUser freshManager ops) i u e p t =
          (.error (.notFound ("User" ++ " not found")),
           runUser freshManager ops)) ∧
    (∀ (ops : List ProductOp) (i : Nat) (lbl : String)
        (n d : Option String) (pr : Option ℚ) (t : String),
        i ∉ issuedProductIds freshManager ops →
        (∀ x, n = some x → 3 ≤ x.length) →
        (∀ x, d = some x → 10 ≤ x.length) →
        (∀ x, pr = some x → 0 < x) →
        get_record (runProduct freshManager ops) i lbl =
          (.error (.notFound (lbl ++ " not found")),
           runProduct freshManager ops) ∧
        update_product (runProduct freshManager ops) i n d pr t =
          (.error (.notFound ("Product" ++ " not found")),
           runProduct freshManager ops)) := by
  constructor
  · intro ops i lbl u e p t hnot hu he hp
    have habs : (runUser freshManager ops).storage i = none :=
      runUser_absent ops freshManager i rfl hnot
    refine ⟨get_record_none _ i lbl habs, ?_⟩
    rw [update_user_run_of
      (fun x hx => (validate_min_length_ok_iff x 3 "Username"
        (by omega)).mpr (hu x hx))
      (fun x hx => (validate_email_ok_iff x).mpr (he x hx))
      (fun x hx => (validate_min_length_ok_iff x 8 "Password"
        (by omega)).mpr (hp x hx))]
    exact update_record_none _ i _ t "User" habs
  · intro ops i lbl n d pr t hnot hn hd hp
    have habs : (runProduct freshManager ops).storage i = none :=
      runProduct_absent ops freshManager i rfl hnot
    refine ⟨get_record_none _ i lbl habs, ?_⟩
    rw [update_product_run_of
      (fun x hx => (validate_min_length_ok_iff x 3 "Product name"
        (by omega)).mpr (hn x hx))
      (fun x hx => (validate_min_length_ok_iff x 10 "Description"
        (by omega)).mpr (hd x hx))
      (fun x hx => (validate_positive_number_ok_iff x "Price").mpr
        (hp x hx))]
    exact update_record_none _ i _ t "Product" habs

/-- Witness for C5: id 2 after one successful create was never issued, so
get and update on it fail with NotFound and the state is unchanged. -/
theorem spec_C5_never_issued_not_found_witness :
    get_record
        (runUser freshManager
          [UserOp.create "alice" "a@b.com" "password123" "T1" "T2"]) 2
        "User" =
      (.error (.notFound ("User" ++ " not found")),
       runUser freshManager
         [UserOp.create "alice" "a@b.com" "password123" "T1" "T2"]) ∧
    update_user
        (runUser freshManager
          [UserOp.create "alice" "a@b.com" "password123" "T1" "T2"]) 2
        none none none "T3" =
      (.error (.notFound ("User" ++ " not found")),
       runUser freshManager
         [UserOp.create "alice" "a@b.com" "password123" "T1" "T2"]) :=
  spec_C5_never_issued_not_found.1
    [UserOp.create "alice" "a@b.com" "password123" "T1" "T2"] 2 "User"
    none none none "T3" (by decide)
    (fun x hx => Option.noConfusion hx) (fun x hx => Option.noConfusion hx)
    (fun x hx => Option.noConfusion hx)

/-- Storage of `_update_record` when the target id is present. -/
theorem update_record_storage_some {δ : Type} (m : Manager δ) {i0 : Nat}
    (f : δ → δ) (t n : String) {rec0 : Record δ}
    (h0 : m.storage i0 = some rec0) (k : Nat) :
    (update_record m i0 f t n).2.storage k =
      if k = i0 then
        some { rec0 with data := f rec0.data, updated_at := t }
      else m.storage k := by
  rw [update_record_some m f t n h0]

/-- Every record in the store satisfies `created_at ≤ updated_at` and its
`updated_at` is at most the bound `b` (the latest provider output seen
so far). -/
def StoreTsBound {δ : Type} (m : Manager δ) (b : String) : Prop :=
  ∀ i rec, m.storage i = some rec →
    rec.created_at ≤ rec.updated_at ∧ rec.updated_at ≤ b

theorem StoreTsBound.mono {δ : Type} {m : Manager δ} {b b' : String}
    (hbb : b ≤ b') (h : StoreTsBound m b) : StoreTsBound m b' :=
  fun i rec hr => ⟨(h i rec hr).1, le_trans (h i rec hr).2 hbb⟩

/-- `_create_record` preserves the timestamp bound when its two provider
outputs come after the bound and in order. -/
theorem create_record_ts {δ : Type} {m : Manager δ} {b : String} (d : δ)
    {t1 t2 : String} (h : StoreTsBound m b) (h1 : b ≤ t1) (h2 : t1 ≤ t2) :
    StoreTsBound (create_record m d t1 t2).2 t2 := by
  intro i rec hr
  rw [create_record_storage] at hr
  by_cases hi : i = m.id_counter + 1
  · rw [if_pos hi, create_record_fst] at hr
    injection hr with hr
    subst hr
    exact ⟨h2, le_refl t2⟩
  · rw [if_neg hi] at hr
    exact ⟨(h i rec hr).1, le_trans (h i rec hr).2 (le_trans h1 h2)⟩

/-- `_update_record` preserves the timestamp bound when its provider
output comes after the bound. -/
theorem update_record_ts {δ : Type} {m : Manager δ} {b : String} (i0 : Nat)
    (f : δ → δ) {t : String} (n : String) (h : StoreTsBound m b)
    (hbt : b ≤ t) : StoreTsBound (update_record m i0 f t n).2 t := by
  intro i rec hr
  cases h0 : m.storage i0 with
  | none =>
    rw [update_record_none m i0 f t n h0] at hr
    exact ⟨(h i rec hr).1, le_trans (h i rec hr).2 hbt⟩
  | some rec0 =>
    rw [update_record_storage_some m f t n h0 i] at hr
    by_cases hi : i = i0
    · rw [if_pos hi] at hr
      injection hr with hr
      subst hr
      exact ⟨le_trans (h i0 rec0 h0).1 (le_trans (h i0 rec0 h0).2 hbt),
        le_refl t⟩
    · rw [if_neg hi] at hr
      exact ⟨(h i rec hr).1, le_trans (h i rec hr).2 hbt⟩

theorem userTraceTs_cons (op : UserOp) (rest : List UserOp) :
    userTraceTs (op :: rest) = userOpTs op ++ userTraceTs rest := by
  simp [userTraceTs]

theorem userTraceTs_append (l1 l2 : List UserOp) :
    userTraceTs (l1 ++ l2) = userTraceTs l1 ++ userTraceTs l2 := by
  simp [userTraceTs]

theorem productTraceTs_cons (op : ProductOp) (rest : List ProductOp) :
    productTraceTs (op :: rest) = productOpTs op ++ productTraceTs rest := by
  simp [productTraceTs]

theorem productTraceTs_append (l1 l2 : List ProductOp) :
    productTraceTs (l1 ++ l2) = productTraceTs l1 ++ productTraceTs l2 := by
  simp [productTraceTs]

/-- Any trace with provider outputs non-decreasing after the bound keeps
the timestamp invariant. -/
theorem runUser_ts (ops : List UserOp) :
    ∀ (m : UserManager) (b : String), StoreTsBound m b →
      List.Chain' (· ≤ ·) (b :: userTraceTs ops) →
      ∀ i rec, (runUser m ops).storage i = some rec →
        rec.created_at ≤ rec.updated_at := by
  induction ops with
  | nil =>
    intro m b hb _ i rec h
    exact (hb i rec h).1
  | cons op rest ih =>
    intro m b hb hch i rec h
    rw [userTraceTs_cons] at hch
    cases op with
    | create u e p t1 t2 =>
      have hb1 : b ≤ t1 := (List.chain'_cons.mp hch).1
      have hch2 := (List.chain'_cons.mp hch).2
      have h12 : t1 ≤ t2 := (List.chain'_cons.mp hch2).1
      have hch3 := (List.chain'_cons.mp hch2).2
      rcases create_user_shape m u e p t1 t2 with ⟨msg, hs⟩ | ⟨_, _, _, hs⟩
      · refine ih (stepUser m (.create u e p t1 t2)).2 t2 ?_ hch3 i rec h
        show StoreTsBound (create_user m u e p t1 t2).2 t2
        rw [hs]
        exact hb.mono (le_trans hb1 h12)
      · refine ih (stepUser m (.create u e p t1 t2)).2 t2 ?_ hch3 i rec h
        show StoreTsBound (create_user m u e p t1 t2).2 t2
        rw [hs]
        exact create_record_ts ⟨u, e, p⟩ hb hb1 h12
    | update i0 u e p t =>
      have hb1 : b ≤ t := (List.chain'_cons.mp hch).1
      have hch2 := (List.chain'_cons.mp hch).2
      rcases update_user_shape m i0 u e p t with ⟨msg, hs⟩ | ⟨_, _, _, hs⟩
      · refine ih (stepUser m (.update i0 u e p t)).2 t ?_ hch2 i rec h
        show StoreTsBound (update_user m i0 u e p t).2 t
        rw [hs]
        exact hb.mono hb1
      · refine ih (stepUser m (.update i0 u e p t)).2 t ?_ hch2 i rec h
        show StoreTsBound (update_user m i0 u e p t).2 t
        rw [hs]
        exact update_record_ts i0 _ "User" hb hb1
    | get i0 lbl =>
      refine ih (stepUser m (.get i0 lbl)).2 b ?_ hch i rec h
      show StoreTsBound (get_record m i0 lbl).2 b
      rw [get_record_snd]
      exact hb

/-- Product analogue of `runUser_ts`. -/
theorem runProduct_ts (ops : List ProductOp) :
    ∀ (m : ProductManager) (b : String), StoreTsBound m b →
      List.Chain' (· ≤ ·) (b :: productTraceTs ops) →
      ∀ i rec, (runProduct m ops).storage i = some rec →
        rec.created_at ≤ rec.updated_at := by
  induction ops with
  | nil =>
    intro m b hb _ i rec h
    exact (hb i rec h).1
  | cons op rest ih =>
    intro m b hb hch i rec h
    rw [productTraceTs_cons] at hch
    cases op with
    | create n d pr t1 t2 =>
      have hb1 : b ≤ t1 := (List.chain'_cons.mp hch).1
      have hch2 := (List.chain'_cons.mp hch).2
      have h12 : t1 ≤ t2 := (List.chain'_cons.mp hch2).1
      have hch3 := (List.chain'_cons.mp hch2).2
      rcases create_product_shape m n d pr t1 t2 with ⟨msg, hs⟩ | ⟨_, _, _, hs⟩
      · refine ih (stepProduct m (.create n d pr t1 t2)).2 t2 ?_ hch3 i rec h
        show StoreTsBound (create_product m n d pr t1 t2).2 t2
        rw [hs]
        exact hb.mono (le_trans hb1 h12)
      · refine ih (stepProduct m (.create n d pr t1 t2)).2 t2 ?_ hch3 i rec h
        show StoreTsBound (create_product m n d pr t1 t2).2 t2
        rw [hs]
        exact create_record_ts ⟨n, d, pr⟩ hb hb1 h12
    | update i0 n d pr t =>
      have hb1 : b ≤ t := (List.chain'_cons.mp hch).1
      have hch2 := (List.chain'_cons.mp hch).2
      rcases update_product_shape m i0 n d pr t with ⟨msg, hs⟩ | ⟨_, _, _, hs⟩
      · refine ih (stepProduct m (.update i0 n d pr t)).2 t ?_ hch2 i rec h
        show StoreTsBound (update_product m i0 n d pr t).2 t
        rw [hs]
        exact hb.mono hb1
      · refine ih (stepProduct m (.update i0 n d pr t)).2 t ?_ hch2 i rec h
        show StoreTsBound (update_product m i0 n d pr t).2 t
        rw [hs]
        exact update_record_ts i0 _ "Product" hb hb1
    | get i0 lbl =>
      refine ih (stepProduct m (.get i0 lbl)).2 b ?_ hch i rec h
      show StoreTsBound (get_record m i0 lbl).2 b
      rw [get_record_snd]
      exact hb

theorem chain'_cons_headD (l : List String) (h : List.Chain' (· ≤ ·) l) :
    List.Chain' (· ≤ ·) (l.headD "" :: l) := by
  cases l with
  | nil => simp
  | cons a l' => exact List.chain'_cons.mpr ⟨le_refl a, h⟩

/-- C2: when the timestamp provider is monotonically non-decreasing under
the string order, every record of the store satisfies
`created_at ≤ updated_at` after every operation of the trace (stated for
every prefix of the trace, i.e. at all times). -/
theorem spec_C2_created_le_updated :
    (∀ pre suf : List UserOp,
        List.Chain' (· ≤ ·) (userTraceTs (pre ++ suf)) →
        ∀ i rec, (runUser freshManager pre).storage i = some rec →
          rec.created_at ≤ rec.updated_at) ∧
    (∀ pre suf : List ProductOp,
        List.Chain' (· ≤ ·) (productTraceTs (pre ++ suf)) →
        ∀ i rec, (runProduct freshManager pre).storage i = some rec →
          rec.created_at ≤ rec.updated_at) := by
  constructor
  · intro pre suf hch i rec h
    rw [userTraceTs_append] at hch
    have hpre := (List.chain'_append.mp hch).1
    exact runUser_ts pre freshManager ((userTraceTs pre).headD "")
      (fun j r hr => Option.noConfusion hr) (chain'_cons_headD _ hpre)
      i rec h
  · intro pre suf hch i rec h
    rw [productTraceTs_append] at hch
    have hpre := (List.chain'_append.mp hch).1
    exact runProduct_ts pre freshManager ((productTraceTs pre).headD "")
      (fun j r hr => Option.noConfusion hr) (chain'_cons_headD _ hpre)
      i rec h

/-- Witness for C2: a concrete user trace with constant provider output. -/
theorem spec_C2_created_le_updated_witness :
    Record.created_at
        (⟨1, ⟨"alice", "a@b.com", "password123"⟩, "T1", "T1"⟩ :
          Record UserData) ≤
      Record.updated_at
        (⟨1, ⟨"alice", "a@b.com", "password123"⟩, "T1", "T1"⟩ :
          Record UserData) :=
  spec_C2_created_le_updated.1
    [UserOp.create "alice" "a@b.com" "password123" "T1" "T1"] []
    (by simp [userTraceTs, userOpTs]) 1
    ⟨1, ⟨"alice", "a@b.com", "password123"⟩, "T1", "T1"⟩ (by decide)

/-- Every stored user record satisfies the user validation rules. -/
def UserStoreValid (m : UserManager) : Prop :=
  ∀ i rec, m.storage i = some rec →
    3 ≤ rec.data.username.length ∧ '@' ∈ rec.data.email.data ∧
      8 ≤ rec.data.password.length

/-- Every stored product record satisfies the product validation rules. -/
def ProductStoreValid (m : ProductManager) : Prop :=
  ∀ i rec, m.storage i = some rec →
    3 ≤ rec.data.name.length ∧ 10 ≤ rec.data.description.length ∧
      0 < rec.data.price

/-- One public user operation preserves store validity. -/
theorem stepUser_valid (m : UserManager) (op : UserOp)
    (h : UserStoreValid m) : UserStoreValid (stepUser m op).2 := by
  cases op with
  | create u e p t1 t2 =>
    rcases create_user_shape m u e p t1 t2 with ⟨msg, hs⟩ | ⟨h1, h2, h3, hs⟩
    · show UserStoreValid (create_user m u e p t1 t2).2
      rw [hs]
      exact h
    · show UserStoreValid (create_user m u e p t1 t2).2
      rw [hs]
      intro i rec hr
      rw [create_record_storage] at hr
      by_cases hi : i = m.id_counter + 1
      · rw [if_pos hi, create_record_fst] at hr
        injection hr with hr
        subst hr
        exact ⟨(validate_min_length_ok_iff u 3 "Username" (by omega)).mp h1,
          (validate_email_ok_iff e).mp h2,
          (validate_min_length_ok_iff p 8 "Password" (by omega)).mp h3⟩
      · rw [if_neg hi] at hr
        exact h i rec hr
  | update i0 u e p t =>
    rcases update_user_shape m i0 u e p t with ⟨msg, hs⟩ | ⟨hu, he, hp, hs⟩
    · show UserStoreValid (update_user m i0 u e p t).2
      rw [hs]
      exact h
    · show UserStoreValid (update_user m i0 u e p t).2
      rw [hs]
      intro i rec hr
      cases h0 : m.storage i0 with
      | none =>
        rw [update_record_none m i0 _ t "User" h0] at hr
        exact h i rec hr
      | some rec0 =>
        rw [update_record_storage_some m _ t "User" h0 i] at hr
        by_cases hi : i = i0
        · rw [if_pos hi] at hr
          injection hr with hr
          subst hr
          have hv := h i0 rec0 h0
          refine ⟨?_, ?_, ?_⟩
          · show 3 ≤ ((applyUserUpdates u e p rec0.data).username).length
            cases hu' : u with
            | none => simpa [applyUserUpdates, hu'] using hv.1
            | some x =>
              have hx := (validate_min_length_ok_iff x 3 "Username"
                (by omega)).mp (hu x hu')
              simpa [applyUserUpdates, hu'] using hx
          · show '@' ∈ ((applyUserUpdates u e p rec0.data).email).data
            cases he' : e with
            | none => simpa [applyUserUpdates, he'] using hv.2.1
            | some x =>
              have hx := (validate_email_ok_iff x).mp (he x he')
              simpa [applyUserUpdates, he'] using hx
          · show 8 ≤ ((applyUserUpdates u e p rec0.data).password).length
            cases hp' : p with
            | none => simpa [applyUserUpdates, hp'] using hv.2.2
            | some x =>
              have hx := (validate_min_length_ok_iff x 8 "Password"
                (by omega)).mp (hp x hp')
              simpa [applyUserUpdates, hp'] using hx
        · rw [if_neg hi] at hr
          exact h i rec hr
  | get i0 lbl =>
    show UserStoreValid (get_record m i0 lbl).2
    rw [get_record_snd]
    exact h

/-- One public product operation preserves store validity. -/
theorem stepProduct_valid (m : ProductManager) (op : ProductOp)
    (h : ProductStoreValid m) : ProductStoreValid (stepProduct m op).2 := by
  cases op with
  | create n d pr t1 t2 =>
    rcases create_product_shape m n d pr t1 t2 with ⟨msg, hs⟩ | ⟨h1, h2, h3, hs⟩
    · show ProductStoreValid (create_product m n d pr t1 t2).2
      rw [hs]
      exact h
    · show ProductStoreValid (create_product m n d pr t1 t2).2
      rw [hs]
      intro i rec hr
      rw [create_record_storage] at hr
      by_cases hi : i = m.id_counter + 1
      · rw [if_pos hi, create_record_fst] at hr
        injection hr with hr
        subst hr
        exact ⟨(validate_min_length_ok_iff n 3 "Product name"
            (by omega)).mp h1,
          (validate_min_length_ok_iff d 10 "Description" (by omega)).mp h2,
          (validate_positive_number_ok_iff pr "Price").mp h3⟩
      · rw [if_neg hi] at hr
        exact h i rec hr
  | update i0 n d pr t =>
    rcases update_product_shape m i0 n d pr t with ⟨msg, hs⟩ | ⟨hn, hd, hp, hs⟩
    · show ProductStoreValid (update_product m i0 n d pr t).2
      rw [hs]
      exact h
    · show ProductStoreValid (update_product m i0 n d pr t).2
      rw [hs]
      intro i rec hr
      cases h0 : m.storage i0 with
      | none =>
        rw [update_record_none m i0 _ t "Product" h0] at hr
        exact h i rec hr
      | some rec0 =>
        rw [update_record_storage_some m _ t "Product" h0 i] at hr
        by_cases hi : i = i0
        · rw [if_pos hi] at hr
          injection hr with hr
          subst hr
          have hv := h i0 rec0 h0
          refine ⟨?_, ?_, ?_⟩
          · show 3 ≤ ((applyProductUpdates n d pr rec0.data).name).length
            cases hn' : n with
            | none => simpa [applyProductUpdates, hn'] using hv.1
            | some x =>
              have hx := (validate_min_length_ok_iff x 3 "Product name"
                (by omega)).mp (hn x hn')
              simpa [applyProductUpdates, hn'] using hx
          · show 10 ≤
                ((applyProductUpdates n d pr rec0.data).description).length
            cases hd' : d with
            | none => simpa [applyProductUpdates, hd'] using hv.2.1
            | some x =>
              have hx := (validate_min_length_ok_iff x 10 "Description"
                (by omega)).mp (hd x hd')
              simpa [applyProductUpdates, hd'] using hx
          · show 0 < (applyProductUpdates n d pr rec0.data).price
            cases hp' : pr with
            | none => simpa [applyProductUpdates, hp'] using hv.2.2
            | some x =>
              have hx := (validate_positive_number_ok_iff x "Price").mp
                (hp x hp')
              simpa [applyProductUpdates, hp'] using hx
        · rw [if_neg hi] at hr
          exact h i rec hr
  | get i0 lbl =>
    show ProductStoreValid (get_record m i0 lbl).2
    rw [get_record_snd]
    exact h

/-- Store validity is preserved along any user trace. -/
theorem runUser_valid (ops : List UserOp) :
    ∀ m : UserManager, UserStoreValid m → UserStoreValid (runUser m ops) := by
  induction ops with
  | nil => exact fun m h => h
  | cons op rest ih =>
    intro m h
    exact ih (stepUser m op).2 (stepUser_valid m op h)

/-- Store validity is preserved along any product trace. -/
theorem runProduct_valid (ops : List ProductOp) :
    ∀ m : ProductManager, ProductStoreValid m →
      ProductStoreValid (runProduct m ops) := by
  induction ops with
  | nil => exact fun m h => h
  | cons op rest ih =>
    intro m h
    exact ih (stepProduct m op).2 (stepProduct_valid m op h)

/-- C10: after any sequence of public operations on a fresh manager, every
stored product record has name length ≥ 3, description length ≥ 10 and
price > 0, and every stored user record has username length ≥ 3,
password length ≥ 8 and an email containing `@`. -/
theorem spec_C10_store_records_valid :
    (∀ (ops : List ProductOp) (i : Nat) (rec : Record ProductData),
        (runProduct freshManager ops).storage i = some rec →
        3 ≤ rec.data.name.length ∧ 10 ≤ rec.data.description.length ∧
          0 < rec.data.price) ∧
    (∀ (ops : List UserOp) (i : Nat) (rec : Record UserData),
        (runUser freshManager ops).storage i = some rec →
        3 ≤ rec.data.username.length ∧ 8 ≤ rec.data.password.length ∧
          '@' ∈ rec.data.email.data) := by
  constructor
  · intro ops i rec h
    exact runProduct_valid ops freshManager
      (fun j r hr => Option.noConfusion hr) i rec h
  · intro ops i rec h
    have hv := runUser_valid ops freshManager
      (fun j r hr => Option.noConfusion hr) i rec h
    exact ⟨hv.1, hv.2.2, hv.2.1⟩

/-- Witness for C10: the record stored by a concrete successful
`create_product` satisfies the rules. -/
theorem spec_C10_store_records_valid_witness :
    3 ≤ (Record.data
        (⟨1, ⟨"Widget", "A useful widget", 5⟩, "T1", "T2"⟩ :
          Record ProductData)).name.length ∧
    10 ≤ (Record.data
        (⟨1, ⟨"Widget", "A useful widget", 5⟩, "T1", "T2"⟩ :
          Record ProductData)).description.length ∧
    0 < (Record.data
        (⟨1, ⟨"Widget", "A useful widget", 5⟩, "T1", "T2"⟩ :
          Record ProductData)).price :=
  spec_C10_store_records_valid.1
    [ProductOp.create "Widget" "A useful widget" 5 "T1" "T2"] 1
    ⟨1, ⟨"Widget", "A useful widget", 5⟩, "T1", "T2"⟩ (by decide)
